import Mathlib

/-! Verification development for the `api.rs` marshalling layer of
sqlite-loadable-rs: a shallow embedding of the value accessors, result
setters and the column-affinity resolution algorithm, together with
theorems settling the specification's claims about them. -/

namespace SqliteLoadable

/-! SQLite fundamental datatype codes, as in sqlite3ext_sys. -/

def SQLITE_INTEGER : Nat := 1

def SQLITE_FLOAT : Nat := 2

def SQLITE_TEXT : Nat := 3

def SQLITE_BLOB : Nat := 4

def SQLITE_NULL : Nat := 5

/-- Possible values that sqlite3_value_type will return for a value
(the `ValueType` enum of api.rs). -/
inductive ValueType where
  | Text
  | Integer
  | Float
  | Blob
  | Null
deriving DecidableEq, Repr

/-- The function `value_type` of api.rs, as a function of the raw type
tag the host reports for the handle.  The source's `unreachable!()` arm
(taken when the tag is outside the closed set) is modelled as `none`. -/
def value_type (raw_type : Nat) : Option ValueType :=
  if raw_type = SQLITE_TEXT then some ValueType.Text
  else if raw_type = SQLITE_INTEGER then some ValueType.Integer
  else if raw_type = SQLITE_FLOAT then some ValueType.Float
  else if raw_type = SQLITE_BLOB then some ValueType.Blob
  else if raw_type = SQLITE_NULL then some ValueType.Null
  else none

/-- A raw `sqlite3_value` handle: an opaque pointer identity together with
the type tag the host's `sqlite3_value_type` reports for it. -/
structure Sqlite3Value where
  ptr : Nat
  raw_type : Nat
deriving DecidableEq, Repr

/-- The `Value` struct of api.rs: a borrowed handle plus the `ValueType`
resolved once at construction. -/
structure Value where
  value : Sqlite3Value
  value_type : ValueType
deriving DecidableEq, Repr

/-- Result of running a Rust function that may `panic!` (here: the
`unreachable!()` inside `value_type`). -/
inductive Outcome (A : Type) where
  | panicked
  | returned (val : A)
deriving DecidableEq, Repr

/-- The method `Value::at` of api.rs: `values.get(at)?` then a `Value`
built from the handle at that index.  (`at` is a Lean keyword, hence the
name `atIndex`.) -/
def Value.atIndex (values : List Sqlite3Value) (idx : Nat) : Outcome (Option Value) :=
  match values[idx]? with
  | none => Outcome.returned none
  | some v =>
    match SqliteLoadable.value_type v.raw_type with
    | some t => Outcome.returned (some ⟨v, t⟩)
    | none => Outcome.panicked

/-- The method `Value::notnull_or` of api.rs. -/
def Value.notnull_or {E : Type} (self : Value) (error : E) : Except E Value :=
  if self.value_type ≠ ValueType.Null then Except.ok self else Except.error error

/-- The method `Value::notnull_or_else` of api.rs. -/
def Value.notnull_or_else {E : Type} (self : Value) (err : Unit → E) : Except E Value :=
  if self.value_type ≠ ValueType.Null then Except.ok self else Except.error (err ())

/-- Modelled from the spec: the crate-level error type `crate::Error` is
not under src/ (api.rs only constructs it, via `CString::new(..)?` and
`Error::new_message("i32 overflow, string to large")`).  The spec names
the two kinds that the result setters produce: `NulByteInSource` for an
embedded nul rejected by `CString::new`, and `LengthOverflow` for a byte
length that `try_into::<i32>()` cannot represent. -/
inductive ApiError where
  | nulByteInSource
  | lengthOverflow
deriving DecidableEq, Repr

/-- UTF-8 byte length of a string: Rust's `str::len`. -/
def byteLen (s : String) : Nat := (s.data.map Char.utf8Size).sum

/-- Whether the string contains an embedded nul character.  `CString::new`
fails exactly on such strings (a nul byte occurs in the UTF-8 encoding iff
the character U+0000 occurs). -/
def hasNulChar (s : String) : Bool := s.data.any (fun c => c == Char.ofNat 0)

/-- Rust's `as c_int` / `as i32` cast from `usize`: two's-complement
truncation to 32 bits, reinterpreted as signed. -/
def i32cast (n : Nat) : Int :=
  if n % 2 ^ 32 < 2 ^ 31 then ((n % 2 ^ 32 : Nat) : Int)
  else ((n % 2 ^ 32 : Nat) : Int) - 2 ^ 32

/-- What `sqlite3ext_result_text` receives from `result_text`: the buffer,
the length passed, and whether a destructor was registered. -/
structure TextCall where
  bytes : String
  n : Int
  destructor : Bool
deriving DecidableEq, Repr

/-- The function `result_text` of api.rs: `CString::new` (nul check),
then `text.len().try_into()` (i32 overflow check), then the host call
with `Some(result_text_destructor)`. -/
def result_text (text : String) : Except ApiError TextCall :=
  if hasNulChar text then Except.error ApiError.nulByteInSource
  else if byteLen text ≤ 2 ^ 31 - 1 then Except.ok ⟨text, (byteLen text : Int), true⟩
  else Except.error ApiError.lengthOverflow

/-- What `sqlite3ext_result_error` receives from `result_error`. -/
structure ErrorCall where
  message : String
  n : Int
deriving DecidableEq, Repr

/-- The function `result_error` of api.rs: `CString::new` (nul check),
then `text.len() as i32` - a plain wrapping cast, with no overflow
check. -/
def result_error (text : String) : Except ApiError ErrorCall :=
  if hasNulChar text then Except.error ApiError.nulByteInSource
  else Except.ok ⟨text, i32cast (byteLen text)⟩

/-- What `sqlite3ext_result_error_code` receives from `result_error_code`. -/
structure ErrorCodeCall where
  code : Int
deriving DecidableEq, Repr

/-- The function `result_error_code` of api.rs: passes the code straight
to the host; it has no failure mode. -/
def result_error_code (code : Int) : ErrorCodeCall := ⟨code⟩

/-- What `sqlite3ext_result_blob` receives from `result_blob`. -/
structure BlobCall where
  bytes : List UInt8
  len : Int
deriving DecidableEq, Repr

/-- The function `result_blob` of api.rs: `let len = blob.len() as c_int`
(a wrapping cast, no overflow check) and the host call; it never fails. -/
def result_blob (blob : List UInt8) : BlobCall := ⟨blob, i32cast blob.length⟩

/-- Value of a decimal digit character, if it is one. -/
def decDigit? (c : Char) : Option Nat :=
  if 48 ≤ c.toNat ∧ c.toNat ≤ 57 then some (c.toNat - 48) else none

/-- Accumulate the value of a digit run; fails on the first non-digit. -/
def digitsVal : List Char → Nat → Option Nat
  | [], acc => some acc
  | c :: cs, acc =>
    match decDigit? c with
    | some d => digitsVal cs (acc * 10 + d)
    | none => none

/-- Value of a non-empty, all-digits character run (Rust integer-literal
body); fails otherwise. -/
def parseDigits (cs : List Char) : Option Nat :=
  match cs with
  | [] => none
  | _ => digitsVal cs 0

/-- Strip one optional leading sign, Rust style: `(isNegative, rest)`. -/
def parseSign : List Char → Bool × List Char
  | '+' :: cs => (false, cs)
  | '-' :: cs => (true, cs)
  | cs => (false, cs)

/-- Rust `str::parse::<iN>` for `N = bits`: optional sign, then one or
more ASCII digits spanning the whole string, rejected on overflow of the
target width. -/
def parseInt (bits : Nat) (s : String) : Option Int :=
  let (neg, cs) := parseSign s.data
  match parseDigits cs with
  | none => none
  | some n =>
    let v : Int := if neg then -(n : Int) else (n : Int)
    if -(2 ^ (bits - 1)) ≤ v ∧ v ≤ 2 ^ (bits - 1) - 1 then some v else none

/-- `value.parse::<i32>()`. -/
def parse_i32 (s : String) : Option Int := parseInt 32 s

/-- `value.parse::<i64>()`. -/
def parse_i64 (s : String) : Option Int := parseInt 64 s

/-- An `f64` as produced by Rust's `str::parse::<f64>`, with the finite
values modelled exactly as rationals. -/
inductive F64 where
  | finite (val : Rat)
  | inf
  | neginf
  | nan
deriving DecidableEq, Repr

/-- Split a character list at the first character satisfying `p`:
`(before, rest after the separator)`, or `(cs, none)` if no separator. -/
def splitOnChar (p : Char → Bool) : List Char → List Char × Option (List Char)
  | [] => ([], none)
  | c :: rest =>
    if p c then ([], some rest)
    else
      let (a, b) := splitOnChar p rest
      (c :: a, b)

/-- Decimal mantissa of Rust's float grammar: `Digit+ | Digit+ '.' Digit*
| Digit* '.' Digit+`, returned as `(integer part, fraction part,
fraction length)`. -/
def parseDecParts (cs : List Char) : Option (Nat × Nat × Nat) :=
  let (ip, fp?) := splitOnChar (fun c => c == '.') cs
  match fp? with
  | none => (parseDigits ip).map (fun n => (n, 0, 0))
  | some fp =>
    if ip.isEmpty && fp.isEmpty then none
    else
      match (if ip.isEmpty then some 0 else parseDigits ip),
            (if fp.isEmpty then some 0 else parseDigits fp) with
      | some i, some f => some (i, f, fp.length)
      | _, _ => none

/-- Signed exponent of Rust's float grammar: `Sign? Digit+`. -/
def parseExp (cs : List Char) : Option Int :=
  let (neg, rest) := parseSign cs
  (parseDigits rest).map (fun n => if neg then -(n : Int) else (n : Int))

/-- Exact rational value of a parsed decimal `i . f`-with-`fl`-fraction-
digits times `10 ^ e`. -/
def decValue (i f fl : Nat) (e : Int) : Rat :=
  let num : Int := ((i * 10 ^ fl + f : Nat) : Int)
  if 0 ≤ e then mkRat (num * 10 ^ e.toNat) (10 ^ fl)
  else mkRat num (10 ^ fl * 10 ^ (-e).toNat)

/-- Finite branch of Rust's `str::parse::<f64>`: mantissa, then an
optional `e`/`E` exponent with mandatory digits. -/
def parseF64Finite (cs : List Char) : Option Rat :=
  let (mant, exp?) := splitOnChar (fun c => c == 'e' || c == 'E') cs
  match exp? with
  | none => (parseDecParts mant).map (fun t => decValue t.1 t.2.1 t.2.2 0)
  | some ecs =>
    match parseDecParts mant, parseExp ecs with
    | some t, some e => some (decValue t.1 t.2.1 t.2.2 e)
    | _, _ => none

/-- Case-insensitive match of the special value `inf` / `infinity`. -/
def isInfStr (cs : List Char) : Bool :=
  cs.map Char.toLower == "inf".data || cs.map Char.toLower == "infinity".data

/-- Case-insensitive match of the special value `nan`. -/
def isNanStr (cs : List Char) : Bool :=
  cs.map Char.toLower == "nan".data

/-- `value.parse::<f64>()`: optional sign, then a special value or the
finite grammar; strict whole-string parsing. -/
def parse_f64 (s : String) : Option F64 :=
  let (neg, cs) := parseSign s.data
  if isInfStr cs then some (if neg then F64.neginf else F64.inf)
  else if isNanStr cs then some F64.nan
  else (parseF64Finite cs).map (fun q => F64.finite (if neg then -q else q))

/-- The `ColumnAffinity` enum of api.rs. -/
inductive ColumnAffinity where
  | Text
  | Integer
  | Real
  | Blob
  | Numeric
deriving DecidableEq, Repr

/-- The `ExtendedColumnAffinity` enum of api.rs. -/
inductive ExtendedColumnAffinity where
  | Text
  | Integer
  | Real
  | Blob
  | Boolean
  | Json
  | Datetime
  | Date
  | Time
  | Numeric
deriving DecidableEq, Repr

/-- Rust's `char::is_whitespace`: the Unicode White_Space property. -/
def isRustWhitespace (c : Char) : Bool :=
  c.val = 9 || c.val = 10 || c.val = 11 || c.val = 12 || c.val = 13 || c.val = 32 ||
  c.val = 0x85 || c.val = 0xA0 || c.val = 0x1680 ||
  (0x2000 ≤ c.val && c.val ≤ 0x200A) ||
  c.val = 0x2028 || c.val = 0x2029 || c.val = 0x202F || c.val = 0x205F || c.val = 0x3000

/-- Rust's `str::trim` on the character list: drop leading and trailing
whitespace. -/
def trimList (cs : List Char) : List Char :=
  ((cs.dropWhile isRustWhitespace).reverse.dropWhile isRustWhitespace).reverse

/-- Rust's `str::trim`. -/
def rustTrim (s : String) : String := String.mk (trimList s.data)

/-- Rust's `str::to_lowercase`, modelled character-wise on the ASCII
range (`Char.toLower` lowers exactly the characters `A`-`Z`); the
substring patterns the classifiers search for are all ASCII. -/
def lowerStr (s : String) : String := String.mk (s.data.map Char.toLower)

/-- Whether `pat` occurs as a contiguous run inside `cs` (Rust's
`str::contains` with a literal pattern). -/
def containsSub : List Char → List Char → Bool
  | [], pat => pat.isEmpty
  | c :: rest, pat => pat.isPrefixOf (c :: rest) || containsSub rest pat

/-- Rust's `str::contains` on strings. -/
def containsStr (s pat : String) : Bool := containsSub s.data pat.data

/-- The method `ColumnAffinity::from_declared_type` of api.rs: trim and
lowercase the declared type, then the SQLite affinity cascade. -/
def ColumnAffinity.from_declared_type (declared_type : String) : ColumnAffinity :=
  let lowered := lowerStr (rustTrim declared_type)
  if containsStr lowered "int" then ColumnAffinity.Integer
  else if containsStr lowered "char" || containsStr lowered "clob" ||
      containsStr lowered "text" then ColumnAffinity.Text
  else if containsStr lowered "blob" || lowered.data.isEmpty then ColumnAffinity.Blob
  else if containsStr lowered "real" || containsStr lowered "floa" ||
      containsStr lowered "doub" then ColumnAffinity.Real
  else ColumnAffinity.Numeric

/-- The method `ExtendedColumnAffinity::extended_column_affinity_from_type`
of api.rs: lowercase the declared type (the source does not trim here),
then the cascade extended with `json` and `boolean` tiers. -/
def ExtendedColumnAffinity.extended_column_affinity_from_type
    (declared_type : String) : ExtendedColumnAffinity :=
  let lowered := lowerStr declared_type
  if containsStr lowered "int" then ExtendedColumnAffinity.Integer
  else if containsStr lowered "char" || containsStr lowered "clob" ||
      containsStr lowered "text" then ExtendedColumnAffinity.Text
  else if containsStr lowered "blob" || lowered.data.isEmpty then ExtendedColumnAffinity.Blob
  else if containsStr lowered "real" || containsStr lowered "floa" ||
      containsStr lowered "doub" then ExtendedColumnAffinity.Real
  else if containsStr lowered "json" then ExtendedColumnAffinity.Json
  else if containsStr lowered "boolean" then ExtendedColumnAffinity.Boolean
  else ExtendedColumnAffinity.Numeric

/-- The affinity classification cascade as the specification words it,
for comparison with the source's `from_declared_type`: case-insensitive
substring match over the trimmed declared-type string, evaluated in
strict precedence order. -/
def classifyAffinitySpec (s : String) : ColumnAffinity :=
  let l := lowerStr (rustTrim s)
  if containsStr l "int" then ColumnAffinity.Integer
  else if ["char", "clob", "text"].any (fun pat => containsStr l pat) then ColumnAffinity.Text
  else if containsStr l "blob" || l.data.isEmpty then ColumnAffinity.Blob
  else if ["real", "floa", "doub"].any (fun pat => containsStr l pat) then ColumnAffinity.Real
  else ColumnAffinity.Numeric

/-- One typed result emitted through the host's result-setting calls. -/
inductive Emitted where
  | int (val : Int)
  | int64 (val : Int)
  | double (val : F64)
  | text (val : String)
deriving DecidableEq, Repr

/-- Decidable equality of `Except` results, so the model can be
evaluated on concrete inputs. -/
instance instDecEqExcept {E A : Type} [DecidableEq E] [DecidableEq A] :
    DecidableEq (Except E A) := fun a b =>
  match a, b with
  | Except.ok x, Except.ok y => decidable_of_iff (x = y) (by simp)
  | Except.error x, Except.error y => decidable_of_iff (x = y) (by simp)
  | Except.ok _, Except.error _ => isFalse (fun h => Except.noConfusion h)
  | Except.error _, Except.ok _ => isFalse (fun h => Except.noConfusion h)

/-- The method `ColumnAffinity::result_text` of api.rs: the tier table of
the affinity, with the plain `result_text` (and its failure modes) as the
final fallback, reached through the `?` operator. -/
def ColumnAffinity.result_text (self : ColumnAffinity) (value : String) :
    Except ApiError Emitted :=
  match self with
  | ColumnAffinity.Numeric =>
    match parse_i32 value with
    | some v => Except.ok (Emitted.int v)
    | none =>
      match parse_i64 value with
      | some v => Except.ok (Emitted.int64 v)
      | none =>
        match parse_f64 value with
        | some v => Except.ok (Emitted.double v)
        | none => (SqliteLoadable.result_text value).map (fun _ => Emitted.text value)
  | ColumnAffinity.Integer =>
    match parse_i32 value with
    | some v => Except.ok (Emitted.int v)
    | none =>
      match parse_i64 value with
      | some v => Except.ok (Emitted.int64 v)
      | none => (SqliteLoadable.result_text value).map (fun _ => Emitted.text value)
  | ColumnAffinity.Real =>
    match parse_f64 value with
    | some v => Except.ok (Emitted.double v)
    | none => (SqliteLoadable.result_text value).map (fun _ => Emitted.text value)
  | ColumnAffinity.Blob | ColumnAffinity.Text =>
    (SqliteLoadable.result_text value).map (fun _ => Emitted.text value)

/-! Helper lemmas. -/

/-- Dropping a satisfied run is idempotent. -/
theorem dropWhile_dropWhile (p : Char → Bool) (l : List Char) :
    (l.dropWhile p).dropWhile p = l.dropWhile p := by
  induction l with
  | nil => rfl
  | cons c t ih =>
    by_cases h : p c
    · simp [List.dropWhile_cons, h, ih]
    · simp [List.dropWhile_cons, h]

/-- A cons fixed by `dropWhile p` has a head not satisfying `p`. -/
theorem head_false_of_dropWhile_fix {p : Char → Bool} {a : Char} {t : List Char}
    (h : List.dropWhile p (a :: t) = a :: t) : p a = false := by
  by_contra hpa
  rw [Bool.not_eq_false] at hpa
  rw [List.dropWhile_cons, if_pos hpa] at h
  have hle : (List.dropWhile p t).length ≤ t.length := (List.dropWhile_sublist p).length_le
  rw [h] at hle
  simp at hle

/-- Trimming the right end of a list whose left end is already trimmed
leaves the left end trimmed. -/
theorem trimEnd_dropWhile_fix (p : Char → Bool) (l : List Char)
    (hfix : l.dropWhile p = l) :
    ((l.reverse.dropWhile p).reverse).dropWhile p = (l.reverse.dropWhile p).reverse := by
  have hsplit : (l.reverse.dropWhile p).reverse ++ (l.reverse.takeWhile p).reverse = l := by
    rw [← List.reverse_append, List.takeWhile_append_dropWhile, List.reverse_reverse]
  rcases hrev : (l.reverse.dropWhile p).reverse with _ | ⟨a, t⟩
  · simp
  · rw [hrev] at hsplit
    rw [← hsplit, List.cons_append] at hfix
    have hpa : p a = false := head_false_of_dropWhile_fix hfix
    simp [List.dropWhile_cons, hpa]

/-- Rust's `str::trim` is idempotent on character lists. -/
theorem trimList_idem (l : List Char) : trimList (trimList l) = trimList l := by
  unfold trimList
  rw [trimEnd_dropWhile_fix isRustWhitespace (List.dropWhile isRustWhitespace l)
    (dropWhile_dropWhile isRustWhitespace l)]
  rw [List.reverse_reverse, dropWhile_dropWhile]

/-- Rust's `str::trim` is idempotent. -/
theorem rustTrim_idem (s : String) : rustTrim (rustTrim s) = rustTrim s := by
  show String.mk (trimList (trimList s.data)) = String.mk (trimList s.data)
  exact congrArg String.mk (trimList_idem s.data)

/-- On a nul-free string whose byte length fits an i32, `result_text`
sends the buffer, its exact length and a destructor registration. -/
theorem result_text_ok {s : String} (hnul : hasNulChar s = false)
    (hlen : byteLen s ≤ 2 ^ 31 - 1) :
    result_text s = Except.ok ⟨s, (byteLen s : Int), true⟩ := by
  simp only [result_text, hnul, Bool.false_eq_true, if_false, if_pos hlen]

/-- On a nul-free string `result_error` always succeeds, with the length
cast (wrapping) to i32. -/
theorem result_error_ok {s : String} (hnul : hasNulChar s = false) :
    result_error s = Except.ok ⟨s, i32cast (byteLen s)⟩ := by
  simp [result_error, hnul]

/-- A replicate of a non-nul character has no embedded nul. -/
theorem hasNulChar_mk_replicate (n : Nat) (c : Char) (h : (c == Char.ofNat 0) = false) :
    hasNulChar (String.mk (List.replicate n c)) = false := by
  show (List.replicate n c).any (fun x => x == Char.ofNat 0) = false
  rw [List.any_eq_false]
  intro x hx
  rw [List.eq_of_mem_replicate hx]
  simp [h]

/-- Byte length of a replicated character. -/
theorem byteLen_mk_replicate (n : Nat) (c : Char) :
    byteLen (String.mk (List.replicate n c)) = n * c.utf8Size := by
  show ((List.replicate n c).map Char.utf8Size).sum = n * c.utf8Size
  rw [List.map_replicate, List.sum_replicate, smul_eq_mul]

/-- A string starting with the nul character has an embedded nul. -/
theorem hasNulChar_mk_cons_nul (l : List Char) :
    hasNulChar (String.mk (Char.ofNat 0 :: l)) = true := by
  show (Char.ofNat 0 :: l).any (fun x => x == Char.ofNat 0) = true
  simp [List.any_cons]

/-- Byte length of a cons. -/
theorem byteLen_mk_cons (c : Char) (l : List Char) :
    byteLen (String.mk (c :: l)) = c.utf8Size + byteLen (String.mk l) := by
  show ((c :: l).map Char.utf8Size).sum = c.utf8Size + (l.map Char.utf8Size).sum
  rw [List.map_cons, List.sum_cons]

/-- The wrapping cast of `2 ^ 31` is the negative boundary value. -/
theorem i32cast_pow31 : i32cast (2 ^ 31) = -(2 ^ 31 : Int) := by
  unfold i32cast
  rw [Nat.mod_eq_of_lt (by norm_num)]
  norm_num

/-! Theorems settling the claims. -/

/-- C7: for every host type tag in the closed set SQLITE_TEXT,
SQLITE_INTEGER, SQLITE_FLOAT, SQLITE_BLOB, SQLITE_NULL, `value_type` is a
total, deterministic function returning the corresponding `ValueType`
variant; under that precondition the unreachable branch is never taken
and the function never fails. -/
theorem c7_value_type_total (tag : Nat)
    (htag : tag = SQLITE_TEXT ∨ tag = SQLITE_INTEGER ∨ tag = SQLITE_FLOAT
      ∨ tag = SQLITE_BLOB ∨ tag = SQLITE_NULL) :
    (value_type tag).isSome = true
  ∧ value_type SQLITE_TEXT = some ValueType.Text
  ∧ value_type SQLITE_INTEGER = some ValueType.Integer
  ∧ value_type SQLITE_FLOAT = some ValueType.Float
  ∧ value_type SQLITE_BLOB = some ValueType.Blob
  ∧ value_type SQLITE_NULL = some ValueType.Null := by
  refine ⟨?_, by decide, by decide, by decide, by decide, by decide⟩
  rcases htag with h | h | h | h | h <;> subst h <;> decide

/-- Witness for C7 at the concrete tag SQLITE_TEXT. -/
theorem c7_witness :
    (value_type SQLITE_TEXT).isSome = true
  ∧ value_type SQLITE_TEXT = some ValueType.Text
  ∧ value_type SQLITE_INTEGER = some ValueType.Integer
  ∧ value_type SQLITE_FLOAT = some ValueType.Float
  ∧ value_type SQLITE_BLOB = some ValueType.Blob
  ∧ value_type SQLITE_NULL = some ValueType.Null :=
  c7_value_type_total SQLITE_TEXT (Or.inl rfl)

/-- C9: `notnull_or` and `notnull_or_else` return the caller-supplied
error exactly when the cached type tag is Null, and otherwise succeed
returning the same `Value` unchanged. -/
theorem c9_notnull {E : Type} (v : Value) (e : E) (f : Unit → E) :
    (v.notnull_or e = Except.ok v ↔ v.value_type ≠ ValueType.Null)
  ∧ (v.notnull_or e = Except.error e ↔ v.value_type = ValueType.Null)
  ∧ (v.notnull_or_else f = Except.ok v ↔ v.value_type ≠ ValueType.Null)
  ∧ (v.notnull_or_else f = Except.error (f ()) ↔ v.value_type = ValueType.Null) := by
  by_cases h : v.value_type = ValueType.Null <;>
    simp [Value.notnull_or, Value.notnull_or_else, h]

/-- C2: `from_declared_type` classifies by case-insensitive substring
match in strict precedence order (int, then char/clob/text, then
blob/empty, then real/floa/doub, else Numeric); in particular
"integer text" maps to Integer, "VARCHAR(255)" to Text, "DOUBLE" to
Real, "FOO" to Numeric, and the empty string to Blob. -/
theorem c2_classification :
    (∀ s : String, ColumnAffinity.from_declared_type s = classifyAffinitySpec s)
  ∧ ColumnAffinity.from_declared_type "integer text" = ColumnAffinity.Integer
  ∧ ColumnAffinity.from_declared_type "VARCHAR(255)" = ColumnAffinity.Text
  ∧ ColumnAffinity.from_declared_type "DOUBLE" = ColumnAffinity.Real
  ∧ ColumnAffinity.from_declared_type "FOO" = ColumnAffinity.Numeric
  ∧ ColumnAffinity.from_declared_type "" = ColumnAffinity.Blob := by
  refine ⟨fun s => ?_, by decide, by decide, by decide, by decide, by decide⟩
  simp only [ColumnAffinity.from_declared_type, classifyAffinitySpec,
    List.any_cons, List.any_nil, Bool.or_false, Bool.or_assoc]

/-- C4 fails as stated: the extended classifier does not trim, so a
whitespace-only declared type classifies differently from its trim. -/
theorem c4_counterexample :
    ¬ (ExtendedColumnAffinity.extended_column_affinity_from_type " "
      = ExtendedColumnAffinity.extended_column_affinity_from_type (rustTrim " ")) := by
  decide

/-- C4 (amended): `ColumnAffinity::from_declared_type` operates on the
trimmed declared-type string (it is invariant under trimming, and a
whitespace-only string classifies as Blob like the empty string), but
`ExtendedColumnAffinity::extended_column_affinity_from_type` does not
trim: a whitespace-only string classifies as Numeric under it. -/
theorem c4_amended :
    (∀ s : String, ColumnAffinity.from_declared_type s
      = ColumnAffinity.from_declared_type (rustTrim s))
  ∧ ExtendedColumnAffinity.extended_column_affinity_from_type " "
      = ExtendedColumnAffinity.Numeric
  ∧ ColumnAffinity.from_declared_type " " = ColumnAffinity.Blob := by
  refine ⟨fun s => ?_, by decide, by decide⟩
  simp only [ColumnAffinity.from_declared_type]
  rw [rustTrim_idem]

/-- C1 fails as stated: the text fallback of the affinity coercion is
not universal, because it propagates the nul-byte failure of the plain
`result_text` through the `?` operator; a one-character string holding
the nul character makes `ColumnAffinity::result_text` fail. -/
theorem c1_counterexample :
    ColumnAffinity.result_text ColumnAffinity.Text (String.mk [Char.ofNat 0])
      = Except.error ApiError.nulByteInSource := by
  decide

/-- C1 (amended): for every affinity, `ColumnAffinity::result_text`
succeeds on every input string that contains no embedded nul byte and
whose byte length fits the host's 32-bit signed length type; numeric
parse failures fall through tier by tier to the text fallback. -/
theorem c1_amended (a : ColumnAffinity) (s : String)
    (hnul : hasNulChar s = false) (hlen : byteLen s ≤ 2 ^ 31 - 1) :
    ∃ emitted, ColumnAffinity.result_text a s = Except.ok emitted := by
  have htext : result_text s = Except.ok ⟨s, (byteLen s : Int), true⟩ :=
    result_text_ok hnul hlen
  cases a with
  | Text => exact ⟨Emitted.text s, by simp [ColumnAffinity.result_text, htext, Except.map]⟩
  | Blob => exact ⟨Emitted.text s, by simp [ColumnAffinity.result_text, htext, Except.map]⟩
  | Real =>
    rcases hf : parse_f64 s with _ | q
    · exact ⟨Emitted.text s, by simp [ColumnAffinity.result_text, hf, htext, Except.map]⟩
    · exact ⟨Emitted.double q, by simp [ColumnAffinity.result_text, hf]⟩
  | Integer =>
    rcases h32 : parse_i32 s with _ | v
    · rcases h64 : parse_i64 s with _ | w
      · exact ⟨Emitted.text s,
          by simp [ColumnAffinity.result_text, h32, h64, htext, Except.map]⟩
      · exact ⟨Emitted.int64 w, by simp [ColumnAffinity.result_text, h32, h64]⟩
    · exact ⟨Emitted.int v, by simp [ColumnAffinity.result_text, h32]⟩
  | Numeric =>
    rcases h32 : parse_i32 s with _ | v
    · rcases h64 : parse_i64 s with _ | w
      · rcases hf : parse_f64 s with _ | q
        · exact ⟨Emitted.text s,
            by simp [ColumnAffinity.result_text, h32, h64, hf, htext, Except.map]⟩
        · exact ⟨Emitted.double q, by simp [ColumnAffinity.result_text, h32, h64, hf]⟩
      · exact ⟨Emitted.int64 w, by simp [ColumnAffinity.result_text, h32, h64]⟩
    · exact ⟨Emitted.int v, by simp [ColumnAffinity.result_text, h32]⟩

/-- Witness for C1 (amended) at Numeric affinity and the input "abc". -/
theorem c1_witness :
    ∃ emitted, ColumnAffinity.result_text ColumnAffinity.Numeric "abc"
      = Except.ok emitted :=
  c1_amended ColumnAffinity.Numeric "abc" (by decide) (by decide)

/-- C3: the tier table of the affinity coercion. Under Numeric affinity
"42" emits a 32-bit integer, "9999999999" a 64-bit integer, "3.14" a
double equal to 3.14, "abc" falls back to text; Integer affinity never
emits a double and sends "3.14" to text; Real tries double first and
falls back to text; Blob and Text always emit the input verbatim as text
with no numeric attempt (even "7" stays text). -/
theorem c3_coercion_tiers :
    ColumnAffinity.result_text ColumnAffinity.Numeric "42" = Except.ok (Emitted.int 42)
  ∧ ColumnAffinity.result_text ColumnAffinity.Numeric "9999999999"
      = Except.ok (Emitted.int64 9999999999)
  ∧ ColumnAffinity.result_text ColumnAffinity.Numeric "3.14"
      = Except.ok (Emitted.double (F64.finite (mkRat 314 100)))
  ∧ ColumnAffinity.result_text ColumnAffinity.Numeric "abc" = Except.ok (Emitted.text "abc")
  ∧ ColumnAffinity.result_text ColumnAffinity.Integer "3.14" = Except.ok (Emitted.text "3.14")
  ∧ (∀ (s : String) (q : F64),
      ColumnAffinity.result_text ColumnAffinity.Integer s ≠ Except.ok (Emitted.double q))
  ∧ ColumnAffinity.result_text ColumnAffinity.Real "3.14"
      = Except.ok (Emitted.double (F64.finite (mkRat 314 100)))
  ∧ ColumnAffinity.result_text ColumnAffinity.Real "abc" = Except.ok (Emitted.text "abc")
  ∧ (∀ s : String,
      ColumnAffinity.result_text ColumnAffinity.Blob s
        = (result_text s).map (fun _ => Emitted.text s)
      ∧ ColumnAffinity.result_text ColumnAffinity.Text s
        = (result_text s).map (fun _ => Emitted.text s))
  ∧ ColumnAffinity.result_text ColumnAffinity.Text "7" = Except.ok (Emitted.text "7") := by
  refine ⟨by decide, by decide, by decide, by decide, by decide, ?_, by decide, by decide,
    fun s => ⟨rfl, rfl⟩, by decide⟩
  intro s q
  simp only [ColumnAffinity.result_text]
  rcases h32 : parse_i32 s with _ | v
  · rcases h64 : parse_i64 s with _ | w
    · rcases ht : result_text s with e | c <;> simp [Except.map]
    · simp
  · simp

/-- C5 fails as stated: `result_error` performs no length-overflow
check (the length is cast with wraparound), so a nul-free string of
2 ^ 31 bytes succeeds instead of failing with LengthOverflow. -/
theorem c5_counterexample :
    result_error (String.mk (List.replicate (2 ^ 31) 'a'))
      = Except.ok ⟨String.mk (List.replicate (2 ^ 31) 'a'), -(2 ^ 31 : Int)⟩
  ∧ 2 ^ 31 - 1 < byteLen (String.mk (List.replicate (2 ^ 31) 'a')) := by
  have hnul := hasNulChar_mk_replicate (2 ^ 31) 'a' (by decide)
  have hlen := byteLen_mk_replicate (2 ^ 31) 'a'
  have ha : Char.utf8Size 'a' = 1 := by decide
  rw [ha, mul_one] at hlen
  constructor
  · rw [result_error_ok hnul, hlen, i32cast_pow31]
  · rw [hlen]
    norm_num

/-- C5 (amended): `result_error` fails with NulByteInSource exactly when
the message embeds a nul byte; otherwise it succeeds, passing the byte
length cast to the host's 32-bit signed length type with wraparound (it
has no LengthOverflow failure mode, unlike `result_text`);
`result_error_code` sets only the host-native code and cannot fail. -/
theorem c5_amended (s : String) :
    (result_error s = Except.error ApiError.nulByteInSource ↔ hasNulChar s = true)
  ∧ (hasNulChar s = false → result_error s = Except.ok ⟨s, i32cast (byteLen s)⟩)
  ∧ (∀ code : Int, (result_error_code code).code = code) := by
  refine ⟨?_, fun h => result_error_ok h, fun code => rfl⟩
  cases h : hasNulChar s
  · simp [result_error, h]
  · simp [result_error, h]

/-- C6 fails as stated: a string that both embeds a nul byte and has an
unrepresentable byte length fails with NulByteInSource, not with
LengthOverflow, because the nul check runs first - so "fails with
LengthOverflow exactly when the length does not fit" does not hold. -/
theorem c6_counterexample :
    result_text (String.mk (Char.ofNat 0 :: List.replicate (2 ^ 31) 'a'))
      = Except.error ApiError.nulByteInSource
  ∧ result_text (String.mk (Char.ofNat 0 :: List.replicate (2 ^ 31) 'a'))
      ≠ Except.error ApiError.lengthOverflow
  ∧ 2 ^ 31 - 1 < byteLen (String.mk (Char.ofNat 0 :: List.replicate (2 ^ 31) 'a')) := by
  have hnul := hasNulChar_mk_cons_nul (List.replicate (2 ^ 31) 'a')
  have hlen := byteLen_mk_replicate (2 ^ 31) 'a'
  have ha : Char.utf8Size 'a' = 1 := by decide
  rw [ha, mul_one] at hlen
  have hfail : result_text (String.mk (Char.ofNat 0 :: List.replicate (2 ^ 31) 'a'))
      = Except.error ApiError.nulByteInSource := by
    unfold result_text
    rw [hnul, if_pos rfl]
  refine ⟨hfail, by rw [hfail]; simp, ?_⟩
  rw [byteLen_mk_cons, hlen]
  omega

/-- C6 (amended): `result_text` returns Ok, registering a destructor for
the transferred buffer, exactly when the string is nul-free and its byte
length is representable as a 32-bit signed integer; it fails with
NulByteInSource exactly when the string embeds a nul, and with
LengthOverflow exactly when the string is nul-free and its length does
not fit (the nul check runs first). -/
theorem c6_amended (s : String) :
    (result_text s = Except.ok ⟨s, (byteLen s : Int), true⟩ ↔
      hasNulChar s = false ∧ byteLen s ≤ 2 ^ 31 - 1)
  ∧ (result_text s = Except.error ApiError.nulByteInSource ↔ hasNulChar s = true)
  ∧ (result_text s = Except.error ApiError.lengthOverflow ↔
      hasNulChar s = false ∧ 2 ^ 31 - 1 < byteLen s) := by
  cases h : hasNulChar s
  · by_cases hl : byteLen s ≤ 2147483647
    · simp [result_text, h, hl, Nat.not_lt.mpr hl]
    · simp [result_text, h, hl, Nat.not_le.mp hl]
  · simp [result_text, h]

/-- C8: for a handle slice whose tags are in the host's closed set,
`Value::at` returns None exactly when the index is at or past the end of
the slice, returns Some of a `Value` built from the handle at the index
otherwise, and never panics for any index. -/
theorem c8_at_index (values : List Sqlite3Value) (idx : Nat)
    (hwf : ∀ v ∈ values, (value_type v.raw_type).isSome = true) :
    (Value.atIndex values idx = Outcome.returned none ↔ values.length ≤ idx)
  ∧ (∀ v, values[idx]? = some v →
      ∃ t, value_type v.raw_type = some t
        ∧ Value.atIndex values idx = Outcome.returned (some ⟨v, t⟩))
  ∧ Value.atIndex values idx ≠ Outcome.panicked := by
  cases hv : values[idx]? with
  | none =>
    have hlen : values.length ≤ idx := List.getElem?_eq_none_iff.mp hv
    refine ⟨?_, ?_, ?_⟩
    · simp [Value.atIndex, hv, hlen]
    · intro v hsome
      exact Option.noConfusion hsome
    · simp [Value.atIndex, hv]
  | some v =>
    rcases List.getElem?_eq_some_iff.mp hv with ⟨hlt, hget⟩
    have hmem : v ∈ values := hget ▸ List.getElem_mem hlt
    rcases Option.isSome_iff_exists.mp (hwf v hmem) with ⟨t, ht⟩
    have hnle : ¬ values.length ≤ idx := by omega
    refine ⟨?_, ?_, ?_⟩
    · simp [Value.atIndex, hv, ht, hnle]
    · intro w hw
      injection hw with hw
      subst hw
      exact ⟨t, ht, by simp [Value.atIndex, hv, ht]⟩
    · simp [Value.atIndex, hv, ht]

/-- Witness for C8 at the one-handle slice holding a SQLITE_TEXT-tagged
handle and index 0. -/
theorem c8_witness :
    (Value.atIndex [⟨7, 3⟩] 0 = Outcome.returned none
      ↔ ([⟨7, 3⟩] : List Sqlite3Value).length ≤ 0)
  ∧ (∀ v, ([⟨7, 3⟩] : List Sqlite3Value)[0]? = some v →
      ∃ t, value_type v.raw_type = some t
        ∧ Value.atIndex [⟨7, 3⟩] 0 = Outcome.returned (some ⟨v, t⟩))
  ∧ Value.atIndex [⟨7, 3⟩] 0 ≠ Outcome.panicked :=
  c8_at_index [⟨7, 3⟩] 0 (by decide)

/-- C10: `result_blob` performs no length-overflow check and never
fails: the length passed to the host is the slice's length reduced
modulo 2 ^ 32 and reinterpreted as a signed 32-bit value, so a slice of
2 ^ 31 bytes is reported with the negative wrapped length -(2 ^ 31) -
unlike `result_text`, which rejects a byte length of 2 ^ 31 with
LengthOverflow. -/
theorem c10_blob_wraparound :
    (∀ blob : List UInt8,
        -(2 ^ 31) ≤ (result_blob blob).len
      ∧ (result_blob blob).len < 2 ^ 31
      ∧ (result_blob blob).len % (2 ^ 32 : Int) = (blob.length : Int) % (2 ^ 32 : Int)
      ∧ (result_blob blob).bytes = blob)
  ∧ (result_blob (List.replicate (2 ^ 31) (0 : UInt8))).len = -(2 ^ 31)
  ∧ result_text (String.mk (List.replicate (2 ^ 31) 'A'))
      = Except.error ApiError.lengthOverflow := by
  refine ⟨fun blob => ?_, ?_, ?_⟩
  · have hspec : -(2 ^ 31) ≤ i32cast blob.length ∧ i32cast blob.length < 2 ^ 31
        ∧ i32cast blob.length % (2 ^ 32 : Int)
          = (blob.length : Int) % (2 ^ 32 : Int) := by
      unfold i32cast
      have hlt : blob.length % 2 ^ 32 < 2 ^ 32 := Nat.mod_lt _ (by norm_num)
      have hcast : ((blob.length % 2 ^ 32 : Nat) : Int)
          = (blob.length : Int) % (2 ^ 32 : Int) := by
        push_cast
        rfl
      split
      · refine ⟨by omega, by omega, ?_⟩
        rw [hcast]
        exact Int.emod_emod_of_dvd _ dvd_rfl
      · refine ⟨?_, ?_, ?_⟩
        · rw [hcast]
          have := Int.emod_nonneg (blob.length : Int) (by norm_num : (2 ^ 32 : Int) ≠ 0)
          omega
        · rw [hcast]
          have := Int.emod_lt_of_pos (blob.length : Int) (by norm_num : (0 : Int) < 2 ^ 32)
          omega
        · rw [hcast]
          omega
    exact ⟨hspec.1, hspec.2.1, hspec.2.2, rfl⟩
  · simp only [result_blob]
    rw [List.length_replicate, i32cast_pow31]
  · have hnul := hasNulChar_mk_replicate (2 ^ 31) 'A' (by decide)
    have hlen := byteLen_mk_replicate (2 ^ 31) 'A'
    have ha : Char.utf8Size 'A' = 1 := by decide
    rw [ha, mul_one] at hlen
    unfold result_text
    rw [hnul, if_neg (by simp), if_neg (by omega)]

end SqliteLoadable
